import Mathlib

/-!
Verification of the job-to-JobSet compilation and remote-command formatting
logic of `axlearn/cloud/gcp/job.py`.

The Python source is shallowly embedded: pure dict/string construction becomes
Lean functions over `List (String × String)` association lists (modelling
Python `dict` insertion-order semantics) and `String`/`List Char`.  Shell
escaping (`shlex.quote` plus the extra `--command` escapes) is embedded at the
character-list level, together with a small model of POSIX shell word parsing
used to state the round-trip property of the escaping.
-/

set_option maxRecDepth 4000

namespace GcpJob

/-! ### Characters used by the escaping logic

Named characters avoid quoting issues in literals: `sqc` is the single quote,
`dqc` the double quote, `bsc` the backslash, `bqc` the backtick. -/

def sqc : Char := Char.ofNat 39

def dqc : Char := Char.ofNat 34

def bsc : Char := Char.ofNat 92

def bqc : Char := Char.ofNat 96

def sqs : String := String.singleton sqc

def dqs : String := String.singleton dqc

/-! ### Python `str.replace` with a single-character pattern

`s.replace(c, t)` for a one-character pattern `c` rewrites every occurrence
of `c` to `t`, left to right; this is exactly a per-character concat-map. -/

def cmap (f : Char → List Char) : List Char → List Char
  | [] => []
  | c :: cs => f c ++ cmap f cs

/-- The character class (ASCII letters, digits, underscore, at-sign, percent,
plus, equals, colon, comma, dot, slash, hyphen) that `shlex.quote` leaves
unquoted (Python `shlex._find_unsafe` with `re.ASCII`). -/
def isSafeChar (c : Char) : Bool :=
  c.isAlpha || c.isDigit || c == '_' || c == '@' || c == '%' || c == '+' ||
    c == '=' || c == ':' || c == ',' || c == '.' || c == '/' || c == '-'

/-- The rewrite applied by `shlex.quote` inside single quotes:
a single quote becomes the five characters quote, double-quote, quote,
double-quote, quote. -/
def escQ (c : Char) : List Char :=
  if c = sqc then [sqc, dqc, sqc, dqc, sqc] else [c]

/-- `cmd.replace(chr(34), chr(92) ++ chr(34))` from
`_prepare_cmd_for_gcloud_ssh`: escape double quotes for `--command`. -/
def repQ (c : Char) : List Char :=
  if c = dqc then [bsc, dqc] else [c]

/-- `cmd.replace(chr(36), chr(92) ++ chr(36))` from
`_prepare_cmd_for_gcloud_ssh`: escape dollar signs for `--command`. -/
def repD (c : Char) : List Char :=
  if c = '$' then [bsc, '$'] else [c]

/-- Python `shlex.quote`: the empty string becomes two single quotes; a string
of safe characters is returned unchanged; otherwise the string is wrapped in
single quotes with every embedded single quote rewritten by `escQ`. -/
def shlexQuote (s : List Char) : List Char :=
  if s = [] then [sqc, sqc]
  else if s.all isSafeChar then s
  else sqc :: cmap escQ s ++ [sqc]

/-- `_prepare_cmd_for_gcloud_ssh` (src/axlearn/cloud/gcp/job.py):
`shlex.quote`, then escape double quotes, then escape dollar signs. -/
def prepare_cmd_for_gcloud_ssh (s : List Char) : List Char :=
  cmap repD (cmap repQ (shlexQuote s))

/-- String-level wrapper of `prepare_cmd_for_gcloud_ssh`. -/
def prepare_cmd_str (s : String) : String :=
  String.mk (prepare_cmd_for_gcloud_ssh s.toList)

/-! ### A model of POSIX shell word interpretation

`parseWord` interprets a character sequence as a single shell word and
returns the literal string the word denotes, or `none` when the word is not a
pure literal: unterminated quoting, or characters that would trigger
expansion (dollar for parameter expansion, backtick for command substitution)
or field splitting (unquoted whitespace).  The three modes are outside
quotes, inside single quotes, inside double quotes.  Inside double quotes a
backslash escapes dollar, backtick, double quote and backslash, and is kept
literally before any other character; inside single quotes everything is
literal. -/

inductive SMode where
  | out
  | sq
  | dq
deriving DecidableEq

def parseWord : SMode → List Char → Option (List Char)
  | .out, [] => some []
  | .out, c :: cs =>
    if c = sqc then parseWord .sq cs
    else if c = dqc then parseWord .dq cs
    else if c = bsc then
      match cs with
      | [] => none
      | d :: cs2 => Option.map (fun r => d :: r) (parseWord .out cs2)
    else if c = '$' ∨ c = bqc ∨ c = ' ' ∨ c = '\t' ∨ c = '\n' then none
    else Option.map (fun r => c :: r) (parseWord .out cs)
  | .sq, [] => none
  | .sq, c :: cs =>
    if c = sqc then parseWord .out cs
    else Option.map (fun r => c :: r) (parseWord .sq cs)
  | .dq, [] => none
  | .dq, c :: cs =>
    if c = dqc then parseWord .out cs
    else if c = bsc then
      match cs with
      | [] => none
      | d :: cs2 =>
        if d = '$' ∨ d = bqc ∨ d = dqc ∨ d = bsc then
          Option.map (fun r => d :: r) (parseWord .dq cs2)
        else
          Option.map (fun r => c :: d :: r) (parseWord .dq cs2)
    else if c = '$' ∨ c = bqc then none
    else Option.map (fun r => c :: r) (parseWord .dq cs)

/-- The round trip of `_prepare_cmd_for_gcloud_ssh` through the shell.  The
escaped command is embedded between the two double quotes of the
`--command` argument; the invoking shell interprets that double-quoted word
(first `parseWord`, yielding the string the ssh tool hands to the remote
shell), and the remote shell then interprets the result as a word of its own
(second `parseWord`), producing the command the remote end actually runs. -/
def shellRoundTrip (s : List Char) : Option (List Char) :=
  Option.bind (parseWord .out (dqc :: prepare_cmd_for_gcloud_ssh s ++ [dqc]))
    (parseWord .out)

/-! ### Python `dict` as an insertion-ordered association list

`dictGet` reads a key; `dictPut` models `d[k] = v` (an existing key keeps its
position and gets the new value, a new key is appended). -/

def dictGet : List (String × String) → String → Option String
  | [], _ => none
  | p :: d, k => if p.1 = k then some p.2 else dictGet d k

def dictPut : List (String × String) → String → String → List (String × String)
  | [], k, v => [(k, v)]
  | p :: d, k, v => if p.1 = k then (k, v) :: d else p :: dictPut d k v

/-! ### The data model: configs and the JobSet document

`GKEJobConfig` carries the fields of `GKEJob.Config` that the embedded
methods read (`name` and `max_tries` come from the base `Job.Config`,
`namespace` is modelled as `ns`).  The replicated job specs produced by the
builder are opaque to the compiler and are modelled by a type parameter. -/

inductive BundlerKind where
  /-- The bundler class is a subclass of `BaseDockerBundler`. -/
  | dockerBased
  /-- Any other bundler class. -/
  | other
deriving DecidableEq

/-- A bundler config: either a plain config whose `klass` field is a bundler
class, or a wrapper config that additionally has an `inner` attribute
holding the wrapped bundler config (or nothing). -/
inductive BundlerCfg where
  | base (klass : BundlerKind)
  | wrapper (klass : BundlerKind) (inner : Option BundlerCfg)

/-- `getattr(bundler_cfg, chars of inner, bundler_cfg)` in `GKEJob.__init__`:
a wrapper config is unwrapped to its `inner` attribute, anything else is
returned unchanged (and a missing bundler stays missing). -/
def resolveBundler : Option BundlerCfg → Option BundlerCfg
  | none => none
  | some (.base k) => some (.base k)
  | some (.wrapper _ i) => i

/-- The `klass` field of a bundler config. -/
def bundlerKlass : BundlerCfg → BundlerKind
  | .base k => k
  | .wrapper k _ => k

structure GKEJobConfig where
  name : String
  command : String
  project : String
  zone : String
  maxTries : Int
  bundler : Option BundlerCfg
  ns : String
  queue : Option String

structure FailurePolicy where
  maxRestarts : Int
deriving DecidableEq

structure JobSetMetadata where
  name : String
  annots : List (String × String)
deriving DecidableEq

structure JobSetSpec (α : Type) where
  failurePolicy : FailurePolicy
  replicatedJobs : List α

structure JobSet (α : Type) where
  metadata : JobSetMetadata
  spec : JobSetSpec α

def queueKey : String := "kueue.x-k8s.io/queue-name"

def topoKey : String := "alpha.jobset.sigs.k8s.io/exclusive-topology"

def topoValue : String := "cloud.google.com/gke-nodepool"

/-- `GKEJob._build_jobset`: starts from an empty annotations dict, adds the
Kueue queue-name annotation when `cfg.queue` is truthy (present and
non-empty), and assembles the document with
`failurePolicy.maxRestarts = cfg.max_tries - 1` and the builder-produced
replicated job specs. -/
def build_jobset (cfg : GKEJobConfig) (replicatedJobs : List α) : JobSet α :=
  let annots : List (String × String) :=
    match cfg.queue with
    | some q => if q = "" then [] else dictPut [] queueKey q
    | none => []
  { metadata := { name := cfg.name, annots := annots },
    spec := { failurePolicy := { maxRestarts := cfg.maxTries - 1 },
              replicatedJobs := replicatedJobs } }

/-- `TPUGKEJob._build_jobset`: the base document with the exclusive-topology
annotation added to `metadata.annotations` (a `dict.update` with one key). -/
def build_jobset_tpu (cfg : GKEJobConfig) (replicatedJobs : List α) : JobSet α :=
  let jobset := build_jobset cfg replicatedJobs
  { jobset with
    metadata := { jobset.metadata with
      annots := dictPut jobset.metadata.annots topoKey topoValue } }

/-- `GPUGKEJob` inherits `_build_jobset` from `GKEJob` unchanged. -/
def build_jobset_gpu (cfg : GKEJobConfig) (replicatedJobs : List α) : JobSet α :=
  build_jobset cfg replicatedJobs

/-! ### Construction-time validation (`GKEJob.__init__`)

The constructor resolves the bundler config (unwrapping a wrapper via its
`inner` attribute) and rejects the job when the result is missing or its
class is not a subclass of `BaseDockerBundler`.  The rejection is the
construction-time configuration error of the error taxonomy (the Python
source signals it with a `NotImplementedError`). -/

inductive ConfigError where
  | unsupportedBundler
deriving DecidableEq

def gke_job_init (cfg : GKEJobConfig) : Except ConfigError GKEJobConfig :=
  match resolveBundler cfg.bundler with
  | none => Except.error ConfigError.unsupportedBundler
  | some b =>
    if bundlerKlass b = BundlerKind.dockerBased then Except.ok cfg
    else Except.error ConfigError.unsupportedBundler

/-! ### Deletion (`GKEJob._delete`)

The cluster is modelled as the list of names of existing JobSets. -/

/-- Modelled from the spec: the raw cluster custom-resource delete call
(issued by `delete_k8s_jobset` in `axlearn/cloud/gcp/utils.py`, which is not
under src/).  Deleting a present name removes it (descendant teardown is
asynchronous and not part of the returned state change); deleting an absent
name fails with a not-found error. -/
def cluster_delete_jobset (name : String) (cluster : List String) :
    Except String (List String) :=
  if name ∈ cluster then Except.ok (cluster.filter (fun n => n ≠ name))
  else Except.error "NotFound"

/-- Modelled from the spec: `delete_k8s_jobset` (axlearn/cloud/gcp/utils.py,
not under src/) issues the delete request and treats a not-found error as
success, leaving the cluster unchanged; any other error is surfaced. -/
def delete_k8s_jobset (name : String) (cluster : List String) :
    Except String (List String) :=
  match cluster_delete_jobset name cluster with
  | Except.ok c => Except.ok c
  | Except.error e => if e = "NotFound" then Except.ok cluster else Except.error e

/-- `GKEJob._delete`: delegates to `delete_k8s_jobset` with the configured
name and namespace. -/
def gke_job_delete (cfg : GKEJobConfig) (cluster : List String) :
    Except String (List String) :=
  delete_k8s_jobset cfg.name cluster

/-! ### Submission (`GKEJob._execute`)

The live api group/version resolved from the cluster registration
(`custom_jobset_kwargs`, not under src/) are passed in as parameters, and the
cluster create call is a parameter function whose result is returned. -/

structure SubmittedJobSet (α : Type) where
  apiVersion : String
  kind : String
  jobset : JobSet α

/-- `GKEJob._execute`: wraps the built document with `apiVersion` and `kind`
and returns the cluster's creation response. -/
def gke_execute (group version : String) (create : String → SubmittedJobSet α → β)
    (cfg : GKEJobConfig) (replicatedJobs : List α) : β :=
  create cfg.ns
    { apiVersion := group ++ "/" ++ version,
      kind := "JobSet",
      jobset := build_jobset cfg replicatedJobs }

/-! ### CPU jobs: remote command formatting and execution -/

structure CPUJobConfig where
  name : String
  project : String
  zone : String
  command : String
deriving DecidableEq

/-- The command string assembled by `CPUJob._execute_remote_cmd`: the command
is prefixed with a pushd, escaped, wrapped in a login non-interactive shell
(`sudo -i bash -c`), optionally wrapped in a detached screen session, and
embedded in the double-quoted `--command` argument of the gcloud ssh
invocation.  The screen wrapping is guarded by the Python truthiness test
`if detached_session:`, which treats a missing and an empty session name
alike: only a non-empty name adds the prefix. -/
def cpu_remote_cmd (cfg : CPUJobConfig) (cmd : String)
    (detached_session : Option String) : String :=
  let c1 := prepare_cmd_str ("pushd /root && " ++ cmd)
  let c2 := "sudo -i bash -c " ++ c1
  let c3 := match detached_session with
    | some s => if s = "" then c2 else "sudo screen -dmS " ++ s ++ " " ++ c2
    | none => c2
  "gcloud compute -q ssh " ++ cfg.name ++ " --project=" ++ cfg.project ++
    " --zone=" ++ cfg.zone ++ " --command=" ++ dqs ++ c3 ++ dqs

/-- `CPUJob._execute_remote_cmd` with its side effect made explicit: the
returned trace lists the command line handed to `subprocess_run`, and the
second component is the completed process produced by the subprocess runner
`run`. -/
def cpu_execute_remote_cmd (run : String → α) (cfg : CPUJobConfig) (cmd : String)
    (detached_session : Option String) : List String × α :=
  let c := cpu_remote_cmd cfg cmd detached_session
  ([c], run c)

/-- `CPUJob._execute`: runs `_execute_remote_cmd(cfg.command)` and falls off
the end of the function body, so the Python method returns `None` and the
completed process is discarded. -/
def cpu_execute (run : String → α) (cfg : CPUJobConfig) :
    List String × Option α :=
  let r := cpu_execute_remote_cmd run cfg cfg.command none
  (r.1, none)

/-! ### `docker_command` -/

/-- Python `str.join` with a single-space separator. -/
def joinSp : List String → String
  | [] => ""
  | [x] => x
  | x :: xs => x ++ " " ++ joinSp xs

/-- `docker_command` (src/axlearn/cloud/gcp/job.py): wraps a command with
`docker run`.  `volumes` models the Python dict by its insertion-ordered
item list.  The detached part is guarded by the Python truthiness test
`if detached_session else ...`, which treats a missing and an empty session
name alike: only a non-empty name produces the detached flags. -/
def docker_command (cmd : String) (image : String)
    (detached_session : Option String) (env : List String)
    (volumes : List (String × String)) (extra_docker_flags : List String) :
    String :=
  let c1 := prepare_cmd_str ("pushd /root && " ++ cmd)
  let c2 := "/bin/bash -c " ++ c1
  let envS := joinSp (env.map (fun e => "-e " ++ e))
  let volS := joinSp (volumes.map (fun p => "-v " ++ p.1 ++ ":" ++ p.2))
  let extraS := joinSp extra_docker_flags
  let det := match detached_session with
    | some s => if s = "" then "" else "-d --name=" ++ s
    | none => ""
  "docker run --rm --privileged -u root --network=host " ++ det ++ " " ++
    envS ++ " " ++ volS ++ " " ++ extraS ++ " " ++ image ++ " " ++ c2

/-! ### Whitespace tokenization

Used to state that a generated command line matches the spec's
space-separated flag grammar: `tokensS` splits on spaces and drops empty
fields. -/

def hasSpace : List Char → Bool
  | [] => false
  | c :: t => if c = ' ' then true else hasSpace t

def tokensAux : List Char → List Char → List (List Char)
  | [], acc => if acc = [] then [] else [acc.reverse]
  | c :: t, acc =>
    if c = ' ' then
      if acc = [] then tokensAux t [] else acc.reverse :: tokensAux t []
    else tokensAux t (c :: acc)

def tokensL (s : List Char) : List (List Char) :=
  tokensAux s []

def tokensS (s : String) : List String :=
  (tokensL s.toList).map String.mk

/-- A substring test: `hasSub hay pat` holds when `pat` occurs contiguously
in `hay`. -/
def isPre : List Char → List Char → Bool
  | [], _ => true
  | _ :: _, [] => false
  | a :: as, b :: bs => a = b && isPre as bs

def hasSub : List Char → List Char → Bool
  | [], pat => pat = []
  | h :: t, pat => isPre pat (h :: t) || hasSub t pat

/-- The queue name that counts as configured in the sense of the spec:
present and non-empty. -/
def configuredQueue : Option String → Option String
  | some q => if q = "" then none else some q
  | none => none

/-- The combined per-character effect of the two `--command` escapes on the
output of the single-quote rewrite `escQ`; used to describe
`prepare_cmd_for_gcloud_ssh` on quoted strings. -/
def escAll (c : Char) : List Char :=
  cmap repD (cmap repQ (escQ c))

/-! ## Theorems -/

theorem dictGet_dictPut_self (d : List (String × String)) (k v : String) :
    dictGet (dictPut d k v) k = some v := by
  induction d with
  | nil => simp [dictPut, dictGet]
  | cons p d ih =>
    by_cases h : p.1 = k <;> simp [dictPut, dictGet, h, ih]

theorem dictGet_dictPut_ne (d : List (String × String)) (k v k2 : String)
    (h : k2 ≠ k) : dictGet (dictPut d k v) k2 = dictGet d k2 := by
  induction d with
  | nil => simp [dictPut, dictGet, Ne.symm h]
  | cons p d ih =>
    by_cases hp : p.1 = k
    · subst hp
      simp [dictPut, dictGet, Ne.symm h]
    · simp [dictPut, dictGet, hp, ih]

/-- C1: for every job configuration with `max_tries >= 1`, the JobSet
document returned by `_build_jobset` has
`spec.failurePolicy.maxRestarts = max_tries - 1`. -/
theorem c1_max_restarts {α : Type} (cfg : GKEJobConfig) (rjobs : List α)
    (_h : 1 ≤ cfg.maxTries) :
    (build_jobset cfg rjobs).spec.failurePolicy.maxRestarts = cfg.maxTries - 1 := by
  simp [build_jobset]

theorem c1_witness :
    1 ≤ (3 : Int) ∧
      (build_jobset
          { name := "job1", command := "cmd", project := "p", zone := "z",
            maxTries := 3, bundler := none, ns := "default", queue := none }
          ([] : List Unit)).spec.failurePolicy.maxRestarts = 3 - 1 :=
  ⟨by decide,
    c1_max_restarts
      { name := "job1", command := "cmd", project := "p", zone := "z",
        maxTries := 3, bundler := none, ns := "default", queue := none }
      ([] : List Unit) (by decide)⟩

/-- C2: the annotations of the document built by `_build_jobset` carry the
`kueue` queue-name key exactly when a non-empty queue is configured, with the
configured queue name as value; otherwise the key is absent. -/
theorem c2_queue_annotation {α : Type} (cfg : GKEJobConfig) (rjobs : List α) :
    dictGet (build_jobset cfg rjobs).metadata.annots queueKey =
      configuredQueue cfg.queue := by
  cases hq : cfg.queue with
  | none => simp [build_jobset, hq, configuredQueue, dictGet]
  | some q =>
    by_cases h : q = "" <;>
      simp [build_jobset, hq, configuredQueue, h, dictGet, dictPut]

/-- C3: the TPU variant's document always carries the exclusive-topology
annotation, while name, every other annotation (in particular the queue
annotation) and the whole spec (failurePolicy, replicatedJobs) agree with the
base document; the GPU variant's document never carries the
exclusive-topology key. -/
theorem c3_variant_annotations {α : Type} (cfg : GKEJobConfig) (rjobs : List α) :
    dictGet (build_jobset_tpu cfg rjobs).metadata.annots topoKey = some topoValue ∧
    (build_jobset_tpu cfg rjobs).metadata.name = (build_jobset cfg rjobs).metadata.name ∧
    (∀ k, k ≠ topoKey →
      dictGet (build_jobset_tpu cfg rjobs).metadata.annots k =
        dictGet (build_jobset cfg rjobs).metadata.annots k) ∧
    (build_jobset_tpu cfg rjobs).spec.failurePolicy =
      (build_jobset cfg rjobs).spec.failurePolicy ∧
    (build_jobset_tpu cfg rjobs).spec.replicatedJobs =
      (build_jobset cfg rjobs).spec.replicatedJobs ∧
    dictGet (build_jobset_gpu cfg rjobs).metadata.annots topoKey = none := by
  refine ⟨?_, ?_, ?_, ?_, ?_, ?_⟩
  · simp [build_jobset_tpu, dictGet_dictPut_self]
  · simp [build_jobset_tpu]
  · intro k hk
    simp [build_jobset_tpu, dictGet_dictPut_ne _ _ _ _ hk]
  · simp [build_jobset_tpu]
  · simp [build_jobset_tpu]
  · cases hq : cfg.queue with
    | none => simp [build_jobset_gpu, build_jobset, hq, dictGet]
    | some q =>
      by_cases h : q = "" <;>
        simp [build_jobset_gpu, build_jobset, hq, h, dictGet, dictPut, queueKey, topoKey]

theorem c3_witness :
    dictGet
        (build_jobset_tpu
          { name := "job1", command := "cmd", project := "p", zone := "z",
            maxTries := 3, bundler := none, ns := "default", queue := some "q1" }
          [()]).metadata.annots queueKey =
      dictGet
        (build_jobset
          { name := "job1", command := "cmd", project := "p", zone := "z",
            maxTries := 3, bundler := none, ns := "default", queue := some "q1" }
          [()]).metadata.annots queueKey ∧
    dictGet
        (build_jobset_tpu
          { name := "job1", command := "cmd", project := "p", zone := "z",
            maxTries := 3, bundler := none, ns := "default", queue := some "q1" }
          [()]).metadata.annots topoKey = some topoValue :=
  ⟨((c3_variant_annotations
      { name := "job1", command := "cmd", project := "p", zone := "z",
        maxTries := 3, bundler := none, ns := "default", queue := some "q1" }
      [()]).2.2.1) queueKey (by decide),
    (c3_variant_annotations
      { name := "job1", command := "cmd", project := "p", zone := "z",
        maxTries := 3, bundler := none, ns := "default", queue := some "q1" }
      [()]).1⟩

/-- C4 counterexample: with `max_tries = 0` (violating `max_tries >= 1`),
`_build_jobset` does not fail: it is a total function and returns a document
whose `maxRestarts` is the negative value `-1`, so the claimed `ConfigError`
is never raised. -/
theorem c4_counterexample :
    (build_jobset
        { name := "job0", command := "cmd", project := "p", zone := "z",
          maxTries := 0, bundler := none, ns := "default", queue := none }
        ([] : List Unit)).spec.failurePolicy.maxRestarts = -1 ∧
    (build_jobset
        { name := "job0", command := "cmd", project := "p", zone := "z",
          maxTries := 0, bundler := none, ns := "default", queue := none }
        ([] : List Unit)).spec.failurePolicy.maxRestarts < 0 := by
  constructor <;> simp [build_jobset]

/-- C4 amended: `_build_jobset` performs no validation of `max_tries`; for
every configuration with `max_tries < 1` it returns (without error) a
document whose `maxRestarts = max_tries - 1` is negative. -/
theorem c4_amended_negative_max_restarts {α : Type} (cfg : GKEJobConfig)
    (rjobs : List α) (h : cfg.maxTries < 1) :
    (build_jobset cfg rjobs).spec.failurePolicy.maxRestarts = cfg.maxTries - 1 ∧
    (build_jobset cfg rjobs).spec.failurePolicy.maxRestarts < 0 := by
  refine ⟨by simp [build_jobset], ?_⟩
  simp [build_jobset]
  omega

theorem c4_witness :
    (0 : Int) < 1 ∧
      ((build_jobset
          { name := "job0", command := "cmd", project := "p", zone := "z",
            maxTries := 0, bundler := none, ns := "default", queue := none }
          ([] : List Unit)).spec.failurePolicy.maxRestarts = 0 - 1 ∧
        (build_jobset
          { name := "job0", command := "cmd", project := "p", zone := "z",
            maxTries := 0, bundler := none, ns := "default", queue := none }
          ([] : List Unit)).spec.failurePolicy.maxRestarts < 0) :=
  ⟨by decide,
    c4_amended_negative_max_restarts
      { name := "job0", command := "cmd", project := "p", zone := "z",
        maxTries := 0, bundler := none, ns := "default", queue := none }
      ([] : List Unit) (by decide)⟩

/-- C6: deleting a JobSet name that does not exist in the cluster succeeds
(no error), and a delete followed by a repeated delete of the same name
yields the same successful result, so repeated deletion is idempotent. -/
theorem c6_delete_idempotent (cfg : GKEJobConfig) (cluster : List String) :
    (cfg.name ∉ cluster → gke_job_delete cfg cluster = Except.ok cluster) ∧
    ∃ c2, gke_job_delete cfg cluster = Except.ok c2 ∧
      gke_job_delete cfg c2 = Except.ok c2 := by
  constructor
  · intro h
    simp [gke_job_delete, delete_k8s_jobset, cluster_delete_jobset, h]
  · by_cases h : cfg.name ∈ cluster
    · refine ⟨cluster.filter (fun n => n ≠ cfg.name), ?_, ?_⟩
      · simp [gke_job_delete, delete_k8s_jobset, cluster_delete_jobset, h]
      · have hmem : cfg.name ∉ cluster.filter (fun n => n ≠ cfg.name) := by
          simp [List.mem_filter]
        simp [gke_job_delete, delete_k8s_jobset, cluster_delete_jobset, hmem]
    · refine ⟨cluster, ?_, ?_⟩ <;>
        simp [gke_job_delete, delete_k8s_jobset, cluster_delete_jobset, h]

theorem c6_witness :
    gke_job_delete
        { name := "job1", command := "cmd", project := "p", zone := "z",
          maxTries := 1, bundler := none, ns := "default", queue := none }
        ["other-job"] = Except.ok ["other-job"] :=
  (c6_delete_idempotent
      { name := "job1", command := "cmd", project := "p", zone := "z",
        maxTries := 1, bundler := none, ns := "default", queue := none }
      ["other-job"]).1 (by decide)

/-- C7: when the configured bundler is missing, or resolves to a config whose
class is not docker-based, `GKEJob` construction fails with the
construction-time configuration error; and construction never succeeds
unless the resolved bundler class is docker-based. -/
theorem c7_bundler_check (cfg : GKEJobConfig) :
    ((∀ b, resolveBundler cfg.bundler = some b →
        bundlerKlass b ≠ BundlerKind.dockerBased) →
      gke_job_init cfg = Except.error ConfigError.unsupportedBundler) ∧
    (∀ cfg2, gke_job_init cfg = Except.ok cfg2 →
      ∃ b, resolveBundler cfg.bundler = some b ∧
        bundlerKlass b = BundlerKind.dockerBased) := by
  constructor
  · intro h
    cases hr : resolveBundler cfg.bundler with
    | none => simp [gke_job_init, hr]
    | some b =>
      have hb := h b hr
      simp [gke_job_init, hr, hb]
  · intro cfg2 hok
    cases hr : resolveBundler cfg.bundler with
    | none => simp [gke_job_init, hr] at hok
    | some b =>
      by_cases hb : bundlerKlass b = BundlerKind.dockerBased
      · exact ⟨b, rfl, hb⟩
      · simp [gke_job_init, hr, hb] at hok

theorem c7_witness :
    gke_job_init
        { name := "job1", command := "cmd", project := "p", zone := "z",
          maxTries := 1, bundler := none, ns := "default", queue := none } =
      Except.error ConfigError.unsupportedBundler :=
  (c7_bundler_check
      { name := "job1", command := "cmd", project := "p", zone := "z",
        maxTries := 1, bundler := none, ns := "default", queue := none }).1
    (fun _ h => nomatch h)

/-- C10: `CPUJob._execute` runs the formatted remote command for the
configured command but returns `None` whatever completed process the
subprocess runner produces, while `GKEJob._execute` returns the cluster's
creation response for the submitted document. -/
theorem c10_cpu_execute_discards {α β γ : Type} (run : String → α)
    (cfg : CPUJobConfig) (group version : String)
    (create : String → SubmittedJobSet γ → β) (gcfg : GKEJobConfig)
    (rjobs : List γ) :
    (cpu_execute run cfg).2 = none ∧
    (cpu_execute run cfg).1 = [cpu_remote_cmd cfg cfg.command none] ∧
    gke_execute group version create gcfg rjobs =
      create gcfg.ns
        { apiVersion := group ++ "/" ++ version, kind := "JobSet",
          jobset := build_jobset gcfg rjobs } := by
  refine ⟨rfl, ?_, rfl⟩
  simp [cpu_execute, cpu_execute_remote_cmd]

/-! ### Step lemmas for `parseWord` -/

theorem pout_nil : parseWord .out [] = some [] := rfl

theorem pout_sq (l : List Char) : parseWord .out (sqc :: l) = parseWord .sq l := by
  rw [parseWord.eq_def]
  dsimp only
  rw [if_pos rfl]

theorem pout_dq (l : List Char) : parseWord .out (dqc :: l) = parseWord .dq l := by
  rw [parseWord.eq_def]
  dsimp only
  rw [if_neg (by decide), if_pos rfl]

theorem pout_lit (c : Char) (h1 : c ≠ sqc) (h2 : c ≠ dqc) (h3 : c ≠ bsc)
    (h4 : ¬(c = '$' ∨ c = bqc ∨ c = ' ' ∨ c = '\t' ∨ c = '\n')) (l : List Char) :
    parseWord .out (c :: l) = Option.map (fun r => c :: r) (parseWord .out l) := by
  rw [parseWord.eq_def]
  dsimp only
  rw [if_neg h1, if_neg h2, if_neg h3, if_neg h4]

theorem psq_close (l : List Char) : parseWord .sq (sqc :: l) = parseWord .out l := by
  rw [parseWord.eq_def]
  dsimp only
  rw [if_pos rfl]

theorem psq_lit (c : Char) (h : c ≠ sqc) (l : List Char) :
    parseWord .sq (c :: l) = Option.map (fun r => c :: r) (parseWord .sq l) := by
  rw [parseWord.eq_def]
  dsimp only
  rw [if_neg h]

theorem pdq_close (l : List Char) : parseWord .dq (dqc :: l) = parseWord .out l := by
  rw [parseWord.eq_def]
  dsimp only
  rw [if_pos rfl]

theorem pdq_lit (c : Char) (h1 : c ≠ dqc) (h2 : c ≠ bsc)
    (h3 : ¬(c = '$' ∨ c = bqc)) (l : List Char) :
    parseWord .dq (c :: l) = Option.map (fun r => c :: r) (parseWord .dq l) := by
  rw [parseWord.eq_def]
  dsimp only
  rw [if_neg h1, if_neg h2, if_neg h3]

theorem pdq_esc (d : Char) (h : d = '$' ∨ d = bqc ∨ d = dqc ∨ d = bsc)
    (l : List Char) :
    parseWord .dq (bsc :: d :: l) = Option.map (fun r => d :: r) (parseWord .dq l) := by
  rw [parseWord.eq_def]
  dsimp only
  rw [if_neg (by decide), if_pos rfl, if_pos h]

/-! ### `cmap` lemmas -/

theorem cmap_append (f : Char → List Char) (a b : List Char) :
    cmap f (a ++ b) = cmap f a ++ cmap f b := by
  induction a with
  | nil => simp [cmap]
  | cons c t ih => simp [cmap, ih]

theorem cmap_cmap (f g : Char → List Char) (s : List Char) :
    cmap g (cmap f s) = cmap (fun c => cmap g (f c)) s := by
  induction s with
  | nil => simp [cmap]
  | cons c t ih => simp [cmap, cmap_append, ih]

theorem cmap_congr (f g : Char → List Char) (h : ∀ c, f c = g c)
    (s : List Char) : cmap f s = cmap g s := by
  induction s with
  | nil => simp [cmap]
  | cons c t ih => simp [cmap, h c, ih]

theorem cmap_id_of (f : Char → List Char) (s : List Char)
    (h : ∀ c ∈ s, f c = [c]) : cmap f s = s := by
  induction s with
  | nil => simp [cmap]
  | cons c t ih =>
    simp [cmap, h c (List.mem_cons_self c t),
      ih (fun d hd => h d (List.mem_cons_of_mem c hd))]

/-! ### Safe-character facts and the two shapes of the escaped command -/

theorem safe_char_facts (c : Char) (h : isSafeChar c = true) :
    c ≠ sqc ∧ c ≠ dqc ∧ c ≠ bsc ∧ c ≠ '$' ∧ c ≠ bqc ∧ c ≠ ' ' ∧
      c ≠ '\t' ∧ c ≠ '\n' := by
  refine ⟨?_, ?_, ?_, ?_, ?_, ?_, ?_, ?_⟩ <;>
    · rintro rfl
      exact absurd h (by decide)

theorem prepare_eq_safe (s : List Char) (h0 : s ≠ [])
    (h1 : s.all isSafeChar = true) : prepare_cmd_for_gcloud_ssh s = s := by
  have hs : ∀ c ∈ s, isSafeChar c = true := by
    intro c hc
    exact List.all_eq_true.mp h1 c hc
  have hQ : cmap repQ s = s :=
    cmap_id_of _ _ (fun c hc => by
      simp [repQ, (safe_char_facts c (hs c hc)).2.1])
  have hD : cmap repD s = s :=
    cmap_id_of _ _ (fun c hc => by
      simp [repD, (safe_char_facts c (hs c hc)).2.2.2.1])
  simp only [prepare_cmd_for_gcloud_ssh, shlexQuote]
  rw [if_neg h0, if_pos h1, hQ, hD]

theorem cmap_wrap (f : Char → List Char) (hf : f sqc = [sqc]) (t : List Char) :
    cmap f (sqc :: t ++ [sqc]) = sqc :: cmap f t ++ [sqc] := by
  show cmap f (sqc :: (t ++ [sqc])) = _
  simp only [cmap, cmap_append, hf]
  simp [cmap]

theorem cmap_repDQ_escQ (s : List Char) :
    cmap repD (cmap repQ (cmap escQ s)) = cmap escAll s := by
  rw [cmap_cmap repQ repD, cmap_cmap escQ]
  exact cmap_congr _ _ (fun c => by
    rw [escAll]
    exact (cmap_cmap repQ repD (escQ c)).symm) s

theorem prepare_eq_unsafe (s : List Char) (h0 : s ≠ [])
    (h1 : ¬s.all isSafeChar = true) :
    prepare_cmd_for_gcloud_ssh s = sqc :: cmap escAll s ++ [sqc] := by
  simp only [prepare_cmd_for_gcloud_ssh, shlexQuote]
  rw [if_neg h0, if_neg h1]
  rw [cmap_wrap repQ (by decide), cmap_wrap repD (by decide)]
  rw [cmap_repDQ_escQ]

/-! ### Double-quote-layer interpretation of the escaped command -/

theorem parse_dq_escAll_char (c : Char) (hb : c ≠ bsc) (hq : c ≠ bqc)
    (rest : List Char) :
    parseWord .dq (escAll c ++ rest) =
      Option.map (fun r => escQ c ++ r) (parseWord .dq rest) := by
  by_cases h1 : c = sqc
  · subst h1
    have e : escAll sqc = [sqc, bsc, dqc, sqc, bsc, dqc, sqc] := by decide
    have eq5 : escQ sqc = [sqc, dqc, sqc, dqc, sqc] := by decide
    rw [e, eq5]
    simp only [List.cons_append, List.nil_append]
    rw [pdq_lit sqc (by decide) (by decide) (by decide),
      pdq_esc dqc (by decide),
      pdq_lit sqc (by decide) (by decide) (by decide),
      pdq_esc dqc (by decide),
      pdq_lit sqc (by decide) (by decide) (by decide)]
    cases parseWord .dq rest <;> simp
  · by_cases h2 : c = dqc
    · subst h2
      have e : escAll dqc = [bsc, dqc] := by decide
      have eq1 : escQ dqc = [dqc] := by decide
      rw [e, eq1]
      simp only [List.cons_append, List.nil_append]
      rw [pdq_esc dqc (by decide)]
    · by_cases h3 : c = '$'
      · subst h3
        have e : escAll '$' = [bsc, '$'] := by decide
        have eq1 : escQ '$' = ['$'] := by decide
        rw [e, eq1]
        simp only [List.cons_append, List.nil_append]
        rw [pdq_esc '$' (by decide)]
      · have e : escAll c = [c] := by
          simp [escAll, escQ, cmap, repQ, repD, h1, h2, h3]
        have eq1 : escQ c = [c] := by simp [escQ, h1]
        rw [e, eq1]
        simp only [List.cons_append, List.nil_append]
        rw [pdq_lit c h2 hb (not_or.mpr ⟨h3, hq⟩)]

theorem parse_dq_escAll (s : List Char) (hb : bsc ∉ s) (hq : bqc ∉ s)
    (rest : List Char) :
    parseWord .dq (cmap escAll s ++ rest) =
      Option.map (fun r => cmap escQ s ++ r) (parseWord .dq rest) := by
  induction s with
  | nil => cases h2 : parseWord .dq rest <;> simp [cmap, h2]
  | cons c t ih =>
    rw [List.mem_cons] at hb hq
    push_neg at hb hq
    simp only [cmap, List.append_assoc]
    rw [parse_dq_escAll_char c (Ne.symm hb.1) (Ne.symm hq.1) _,
      ih hb.2 hq.2]
    cases parseWord .dq rest <;> simp

/-! ### Single-quote-layer interpretation of the quoted string -/

theorem parse_sq_escQ_char (c : Char) (rest : List Char) :
    parseWord .sq (escQ c ++ rest) =
      Option.map (fun r => c :: r) (parseWord .sq rest) := by
  by_cases h : c = sqc
  · subst h
    have e : escQ sqc = [sqc, dqc, sqc, dqc, sqc] := by decide
    rw [e]
    simp only [List.cons_append, List.nil_append]
    rw [psq_close, pout_dq, pdq_lit sqc (by decide) (by decide) (by decide),
      pdq_close, pout_sq]
  · have e : escQ c = [c] := by simp [escQ, h]
    rw [e]
    simp only [List.cons_append, List.nil_append]
    rw [psq_lit c h]

theorem parse_sq_escQ (s rest : List Char) :
    parseWord .sq (cmap escQ s ++ rest) =
      Option.map (fun r => s ++ r) (parseWord .sq rest) := by
  induction s with
  | nil => cases h2 : parseWord .sq rest <;> simp [cmap, h2]
  | cons c t ih =>
    simp only [cmap, List.append_assoc]
    rw [parse_sq_escQ_char c _, ih]
    cases parseWord .sq rest <;> simp

/-! ### Interpretation of safe (unquoted) strings -/

theorem parse_dq_plain (s : List Char) (h : ∀ c ∈ s, isSafeChar c = true)
    (rest : List Char) :
    parseWord .dq (s ++ rest) =
      Option.map (fun r => s ++ r) (parseWord .dq rest) := by
  induction s with
  | nil => cases h2 : parseWord .dq rest <;> simp [h2]
  | cons c t ih =>
    obtain ⟨_, hc2, hc3, hc4, hc5, _, _, _⟩ :=
      safe_char_facts c (h c (List.mem_cons_self c t))
    simp only [List.cons_append]
    rw [pdq_lit c hc2 hc3 (not_or.mpr ⟨hc4, hc5⟩),
      ih (fun d hd => h d (List.mem_cons_of_mem c hd))]
    cases parseWord .dq rest <;> simp

theorem parse_out_plain (s : List Char) (h : ∀ c ∈ s, isSafeChar c = true) :
    parseWord .out s = some s := by
  induction s with
  | nil => rfl
  | cons c t ih =>
    obtain ⟨hc1, hc2, hc3, hc4, hc5, hc6, hc7, hc8⟩ :=
      safe_char_facts c (h c (List.mem_cons_self c t))
    rw [pout_lit c hc1 hc2 hc3
        (by rintro (e | e | e | e | e) <;> [exact hc4 e; exact hc5 e;
          exact hc6 e; exact hc7 e; exact hc8 e]),
      ih (fun d hd => h d (List.mem_cons_of_mem c hd))]
    rfl

/-- C5 counterexample: the claim quantifies over every input string, but for
the two-character input backslash, double-quote the escaped form, embedded
in the double-quoted `--command` argument and interpreted by the shell, does
not reproduce the original command: the backslash from the input merges with
the escaping backslash inserted before the double quote, the double quote
terminates the `--command` argument early, and the word is not interpreted
back to the input. -/
theorem c5_counterexample : shellRoundTrip [bsc, dqc] ≠ some [bsc, dqc] := by
  decide

/-- C5 amended: for every input string containing no backslash and no
backtick (in particular for all strings of double quotes, dollar signs,
whitespace and other characters), the escaped form produced by
`_prepare_cmd_for_gcloud_ssh`, embedded inside the double-quoted
`--command` argument and interpreted by a POSIX-compatible shell (outer
double-quote layer, then remote word interpretation), reproduces the
original literal command string. -/
theorem c5_amended_roundtrip (s : List Char) (hb : bsc ∉ s) (hq : bqc ∉ s) :
    shellRoundTrip s = some s := by
  by_cases h0 : s = []
  · subst h0
    decide
  by_cases hsafe : s.all isSafeChar = true
  · have hsf : ∀ c ∈ s, isSafeChar c = true := by
      intro c hc
      exact List.all_eq_true.mp hsafe c hc
    rw [shellRoundTrip, prepare_eq_safe s h0 hsafe]
    rw [show dqc :: s ++ [dqc] = dqc :: (s ++ [dqc]) from rfl, pout_dq]
    rw [parse_dq_plain s hsf [dqc], pdq_close, pout_nil]
    simp only [Option.map_some', List.append_nil]
    exact parse_out_plain s hsf
  · rw [shellRoundTrip, prepare_eq_unsafe s h0 hsafe]
    rw [show dqc :: (sqc :: cmap escAll s ++ [sqc]) ++ [dqc] =
        dqc :: (sqc :: (cmap escAll s ++ [sqc, dqc])) from by simp]
    rw [pout_dq, pdq_lit sqc (by decide) (by decide) (by decide),
      parse_dq_escAll s hb hq [sqc, dqc]]
    rw [show parseWord .dq [sqc, dqc] = some [sqc] from by decide]
    simp only [Option.map_some']
    show parseWord .out (sqc :: (cmap escQ s ++ [sqc])) = some s
    rw [pout_sq, parse_sq_escQ s [sqc]]
    rw [show parseWord .sq [sqc] = some [] from by decide]
    simp


theorem c5_witness :
    shellRoundTrip ['a', ' ', dqc, 'b', dqc, ' ', '$', 'x'] =
      some ['a', ' ', dqc, 'b', dqc, ' ', '$', 'x'] :=
  c5_amended_roundtrip ['a', ' ', dqc, 'b', dqc, ' ', '$', 'x']
    (by decide) (by decide)

/-- C8: for every CPU job config and command, the formatted remote command is
the gcloud ssh invocation with the configured name, project and zone and the
escaped command wrapped in a login, non-interactive shell inside the
double-quoted `--command` argument; when a detached session name is given
(truthy, hence non-empty) the command inside `--command` is additionally
prefixed with the detached screen invocation, while an empty session name is
falsy in Python and behaves like no session at all; and for the concrete
scenario of cmd equal to echo hi and session sess, the result contains the
detached-screen fragment and the single-quoted escaped payload. -/
theorem c8_remote_cmd_form (cfg : CPUJobConfig) (cmd : String) :
    (cpu_remote_cmd cfg cmd none =
      "gcloud compute -q ssh " ++ cfg.name ++ " --project=" ++ cfg.project ++
        " --zone=" ++ cfg.zone ++ " --command=" ++ dqs ++
        ("sudo -i bash -c " ++ prepare_cmd_str ("pushd /root && " ++ cmd)) ++
        dqs) ∧
    (cpu_remote_cmd cfg cmd (some "") = cpu_remote_cmd cfg cmd none) ∧
    (∀ sess, sess ≠ "" → cpu_remote_cmd cfg cmd (some sess) =
      "gcloud compute -q ssh " ++ cfg.name ++ " --project=" ++ cfg.project ++
        " --zone=" ++ cfg.zone ++ " --command=" ++ dqs ++
        ("sudo screen -dmS " ++ sess ++ " " ++
          ("sudo -i bash -c " ++ prepare_cmd_str ("pushd /root && " ++ cmd))) ++
        dqs) ∧
    hasSub (cpu_remote_cmd
        { name := "vm1", project := "proj1", zone := "zone1",
          command := "echo hi" } "echo hi" (some "sess")).toList
      "screen -dmS sess".toList = true ∧
    hasSub (cpu_remote_cmd
        { name := "vm1", project := "proj1", zone := "zone1",
          command := "echo hi" } "echo hi" (some "sess")).toList
      (sqs ++ "pushd /root && echo hi" ++ sqs).toList = true := by
  refine ⟨rfl, ?_, ?_, by decide, by decide⟩
  · unfold cpu_remote_cmd
    dsimp only
    rw [if_pos rfl]
  · intro sess hs
    unfold cpu_remote_cmd
    dsimp only
    rw [if_neg hs]

theorem c8_witness :
    ("sess" : String) ≠ "" ∧
      cpu_remote_cmd
          { name := "vm1", project := "proj1", zone := "zone1",
            command := "echo hi" } "echo hi" (some "sess") =
        "gcloud compute -q ssh " ++ "vm1" ++ " --project=" ++ "proj1" ++
          " --zone=" ++ "zone1" ++ " --command=" ++ dqs ++
          ("sudo screen -dmS " ++ "sess" ++ " " ++
            ("sudo -i bash -c " ++
              prepare_cmd_str ("pushd /root && " ++ "echo hi"))) ++ dqs :=
  ⟨by decide,
    (c8_remote_cmd_form
        { name := "vm1", project := "proj1", zone := "zone1",
          command := "echo hi" } "echo hi").2.2.1 "sess" (by decide)⟩



/-! ### Tokenization lemmas for the container-run command grammar -/

theorem tokensAux_sep (a : List Char) :
    ∀ (b acc : List Char),
      tokensAux (a ++ ' ' :: b) acc = tokensAux a acc ++ tokensAux b [] := by
  induction a with
  | nil =>
    intro b acc
    by_cases h : acc = [] <;> simp [tokensAux, h]
  | cons c t ih =>
    intro b acc
    by_cases hc : c = ' '
    · subst hc
      by_cases h : acc = [] <;> simp [tokensAux, h, ih]
    · simp [tokensAux, hc, ih]

theorem tokensAux_word (w : List Char) :
    ∀ acc, w ≠ [] → hasSpace w = false →
      tokensAux w acc = [acc.reverse ++ w] := by
  induction w with
  | nil =>
    intro acc h1 _
    exact absurd rfl h1
  | cons c t ih =>
    intro acc _ h2
    have hc : c ≠ ' ' := by
      intro e
      subst e
      simp [hasSpace] at h2
    have h2t : hasSpace t = false := by
      simpa [hasSpace, hc] using h2
    by_cases ht : t = []
    · subst ht
      simp [tokensAux, hc]
    · rw [show tokensAux (c :: t) acc = tokensAux t (c :: acc) from by
        simp [tokensAux, hc]]
      rw [ih (c :: acc) ht h2t]
      simp

theorem str_toList_append (a b : String) :
    (a ++ b).toList = a.toList ++ b.toList := rfl

theorem str_assoc (a b c : String) : a ++ b ++ c = a ++ (b ++ c) := by
  cases a with
  | mk d1 =>
    cases b with
    | mk d2 =>
      cases c with
      | mk d3 =>
        exact congrArg String.mk (List.append_assoc d1 d2 d3)

theorem str_toList_nil (w : String) (h : w.toList = []) : w = "" := by
  cases w with
  | mk d =>
    simp only [String.toList] at h
    simp [h]

theorem tokensS_sep (a b : String) :
    tokensS (a ++ " " ++ b) = tokensS a ++ tokensS b := by
  have hl : (a ++ " " ++ b).toList = a.toList ++ ' ' :: b.toList := by
    rw [str_toList_append, str_toList_append, List.append_assoc]
    rfl
  simp only [tokensS, tokensL, hl, tokensAux_sep, List.map_append]

theorem tokensS_word (w : String) (h1 : w ≠ "") (h2 : hasSpace w.toList = false) :
    tokensS w = [w] := by
  have h1l : w.toList ≠ [] := fun e => h1 (str_toList_nil w e)
  simp only [tokensS, tokensL, tokensAux_word w.toList [] h1l h2]
  simp only [List.reverse_nil, List.nil_append, List.map_cons, List.map_nil]
  cases w with
  | mk d => rfl

theorem tokensS_joinSp : ∀ L : List String,
    tokensS (joinSp L) = (L.map tokensS).flatten
  | [] => rfl
  | [x] => by simp [joinSp]
  | x :: y :: ys => by
    rw [show joinSp (x :: y :: ys) = x ++ " " ++ joinSp (y :: ys) from rfl]
    rw [tokensS_sep, tokensS_joinSp (y :: ys)]
    simp

theorem hasSpace_append (a b : List Char) :
    hasSpace (a ++ b) = (hasSpace a || hasSpace b) := by
  induction a with
  | nil => simp [hasSpace]
  | cons c t ih => by_cases h : c = ' ' <;> simp [hasSpace, h, ih]

theorem join_singletons (l : List String) :
    (l.map (fun a => [a])).flatten = l := by
  induction l with
  | nil => simp
  | cons x xs ih => simp [ih]



theorem tokensS_empty : tokensS "" = [] := rfl

theorem vol_token_split (p1 p2 : String) :
    ("-v " ++ p1 ++ ":" ++ p2 : String) = "-v" ++ " " ++ (p1 ++ ":" ++ p2) := by
  rw [str_assoc, str_assoc, str_assoc p1 ":" p2]
  exact congrArg (fun t => t ++ (p1 ++ (":" ++ p2)))
    (show ("-v " : String) = "-v" ++ " " from by decide)

/-- C9: the string returned by `docker_command` tokenizes (splitting on
whitespace, empty segments dropped) exactly into the container-run grammar:
the fixed `docker run --rm --privileged -u root --network=host` prefix, then
`-d --name=<session>` exactly when a truthy (non-empty) detached session
name is given (an empty name is falsy in Python and, like a missing one,
produces no detached flags), then one `-e VAR` flag per environment
variable, one `-v src:dst` flag per volume mapping entry, the extra flags,
the image, and the escaped command; the inputs are assumed to be single
shell tokens (non-empty, no spaces). -/
theorem c9_docker_command_tokens (cmd image : String)
    (det : Option String) (env : List String)
    (vols : List (String × String)) (extra : List String)
    (hdet : match det with
      | some s => hasSpace s.toList = false
      | none => True)
    (henv : ∀ e ∈ env, e ≠ "" ∧ hasSpace e.toList = false)
    (hvol : ∀ p ∈ vols, hasSpace p.1.toList = false ∧
      hasSpace p.2.toList = false)
    (hextra : ∀ f ∈ extra, f ≠ "" ∧ hasSpace f.toList = false)
    (himg1 : image ≠ "") (himg2 : hasSpace image.toList = false) :
    tokensS (docker_command cmd image det env vols extra) =
      ["docker", "run", "--rm", "--privileged", "-u", "root",
        "--network=host"] ++
      (match det with
        | some s => if s = "" then [] else ["-d", "--name=" ++ s]
        | none => []) ++
      (env.map (fun e => ["-e", e])).flatten ++
      (vols.map (fun p => ["-v", p.1 ++ ":" ++ p.2])).flatten ++
      extra ++ [image] ++
      tokensS ("/bin/bash -c " ++ prepare_cmd_str ("pushd /root && " ++ cmd)) := by
  have hP0 : tokensS "docker run --rm --privileged -u root --network=host" =
      ["docker", "run", "--rm", "--privileged", "-u", "root",
        "--network=host"] := by decide
  have hEnv : tokensS (joinSp (env.map (fun e => "-e " ++ e))) =
      (env.map (fun e => ["-e", e])).flatten := by
    rw [tokensS_joinSp, List.map_map]
    refine congrArg List.flatten (List.map_congr_left ?_)
    intro e he
    show tokensS ("-e " ++ e) = ["-e", e]
    rw [show ("-e " ++ e : String) = "-e" ++ " " ++ e from rfl, tokensS_sep,
      tokensS_word e (henv e he).1 (henv e he).2]
    rfl
  have hVol : tokensS (joinSp (vols.map (fun p => "-v " ++ p.1 ++ ":" ++ p.2))) =
      (vols.map (fun p => ["-v", p.1 ++ ":" ++ p.2])).flatten := by
    rw [tokensS_joinSp, List.map_map]
    refine congrArg List.flatten (List.map_congr_left ?_)
    intro p hp
    show tokensS ("-v " ++ p.1 ++ ":" ++ p.2) = ["-v", p.1 ++ ":" ++ p.2]
    have hne : (p.1 ++ ":" ++ p.2 : String) ≠ "" := by
      intro e
      have := congrArg String.toList e
      rw [str_toList_append, str_toList_append] at this
      simp at this
    have hns : hasSpace (p.1 ++ ":" ++ p.2 : String).toList = false := by
      rw [str_toList_append, str_toList_append, hasSpace_append,
        hasSpace_append, (hvol p hp).1, (hvol p hp).2]
      rfl
    rw [vol_token_split p.1 p.2, tokensS_sep,
      tokensS_word (p.1 ++ ":" ++ p.2) hne hns]
    rfl
  have hExtra : tokensS (joinSp extra) = extra := by
    rw [tokensS_joinSp]
    rw [List.map_congr_left
      (fun f hf => tokensS_word f (hextra f hf).1 (hextra f hf).2)]
    exact join_singletons extra
  have hImg : tokensS image = [image] := tokensS_word image himg1 himg2
  cases det with
  | none =>
    rw [show docker_command cmd image none env vols extra =
        "docker run --rm --privileged -u root --network=host" ++ " " ++ "" ++
          " " ++ joinSp (env.map (fun e => "-e " ++ e)) ++ " " ++
          joinSp (vols.map (fun p => "-v " ++ p.1 ++ ":" ++ p.2)) ++ " " ++
          joinSp extra ++ " " ++ image ++ " " ++
          ("/bin/bash -c " ++ prepare_cmd_str ("pushd /root && " ++ cmd))
      from rfl]
    simp only [tokensS_sep, tokensS_empty]
    rw [hP0, hEnv, hVol, hExtra, hImg]
  | some s =>
    by_cases hs : s = ""
    · subst hs
      rw [show docker_command cmd image (some "") env vols extra =
          "docker run --rm --privileged -u root --network=host" ++ " " ++ "" ++
            " " ++ joinSp (env.map (fun e => "-e " ++ e)) ++ " " ++
            joinSp (vols.map (fun p => "-v " ++ p.1 ++ ":" ++ p.2)) ++ " " ++
            joinSp extra ++ " " ++ image ++ " " ++
            ("/bin/bash -c " ++ prepare_cmd_str ("pushd /root && " ++ cmd))
        from rfl]
      simp only [tokensS_sep, tokensS_empty]
      rw [hP0, hEnv, hVol, hExtra, hImg]
      simp
    · have hdc : docker_command cmd image (some s) env vols extra =
          "docker run --rm --privileged -u root --network=host" ++ " " ++
            ("-d --name=" ++ s) ++
            " " ++ joinSp (env.map (fun e => "-e " ++ e)) ++ " " ++
            joinSp (vols.map (fun p => "-v " ++ p.1 ++ ":" ++ p.2)) ++ " " ++
            joinSp extra ++ " " ++ image ++ " " ++
            ("/bin/bash -c " ++ prepare_cmd_str ("pushd /root && " ++ cmd)) := by
        unfold docker_command
        dsimp only
        rw [if_neg hs]
        rfl
      rw [hdc]
      have hDet : tokensS ("-d --name=" ++ s) = ["-d", "--name=" ++ s] := by
        rw [show ("-d --name=" ++ s : String) = "-d" ++ " " ++ ("--name=" ++ s)
          from str_assoc "-d " "--name=" s, tokensS_sep]
        have hne : ("--name=" ++ s : String) ≠ "" := by
          intro e
          have := congrArg String.toList e
          rw [str_toList_append] at this
          simp at this
        have hns : hasSpace ("--name=" ++ s : String).toList = false := by
          rw [str_toList_append, hasSpace_append, hdet]
          rfl
        rw [tokensS_word ("--name=" ++ s) hne hns]
        rfl
      simp only [tokensS_sep]
      rw [hP0, hDet, hEnv, hVol, hExtra, hImg, if_neg hs]

theorem c9_witness :
    tokensS (docker_command "echo ok" "img1" (some "sess1") ["VAR1", "VAR2"]
        [("/a", "/b")] ["--shm-size=1g"]) =
      ["docker", "run", "--rm", "--privileged", "-u", "root",
        "--network=host"] ++
      ["-d", "--name=" ++ "sess1"] ++
      ((["VAR1", "VAR2"].map (fun e => ["-e", e])).flatten) ++
      (([("/a", "/b")].map (fun p => ["-v", p.1 ++ ":" ++ p.2])).flatten) ++
      ["--shm-size=1g"] ++ ["img1"] ++
      tokensS ("/bin/bash -c " ++ prepare_cmd_str ("pushd /root && " ++ "echo ok")) :=
  c9_docker_command_tokens "echo ok" "img1" (some "sess1") ["VAR1", "VAR2"]
    [("/a", "/b")] ["--shm-size=1g"] (by decide) (by decide) (by decide)
    (by decide) (by decide) (by decide)


end GcpJob
